import Mathlib

/-!
Verification development for the pose-estimation pipeline of
`labelme/_automation/pose_estimation.py`.

The Python module is embedded shallowly: numeric values are exact rationals,
Python lists are Lean lists, fallible steps are `Except String`.  Model
inference (torch / mmpose calls) is abstracted as input data: the
post-processing that the module performs on model outputs is embedded
faithfully, statement by statement.
-/

namespace LabeluPose

/-- A keypoint, the Python triple `[x, y, conf]` (third slot is a raw
visibility value or a confidence, depending on the pipeline stage). -/
structure Keypoint where
  x : ℚ
  y : ℚ
  conf : ℚ
deriving DecidableEq

/-- The all-zero keypoint, used to totalize Python list indexing `kpts[i]`
(every real pose carries exactly 17 keypoints, so in-range accesses agree
with the source; an out-of-range index would raise IndexError in Python,
which the module-level entry points catch). -/
def kp0 : Keypoint := ⟨0, 0, 0⟩

/-- A pose is the Python list of keypoint triples for one instance. -/
abbrev Pose := List Keypoint

/-- `COCO_KEYPOINTS` from the source: 17 joint names, fixed order. -/
def COCO_KEYPOINTS : List String :=
  ["nose", "left_eye", "right_eye", "left_ear", "right_ear",
   "left_shoulder", "right_shoulder", "left_elbow", "right_elbow",
   "left_wrist", "right_wrist", "left_hip", "right_hip",
   "left_knee", "right_knee", "left_ankle", "right_ankle"]

/-- `COCO_SKELETON` from the source: 18 joint-index edges. -/
def COCO_SKELETON : List (ℕ × ℕ) :=
  [(5, 7), (7, 9), (6, 8), (8, 10), (5, 6), (5, 11), (6, 12), (11, 12),
   (11, 13), (13, 15), (12, 14), (14, 16), (0, 1), (0, 2), (1, 3), (2, 4),
   (0, 5), (0, 6)]

/-- An output annotation shape, the dict built in `get_shapes_from_poses`
(the `flags` entry is the constant empty dict in the source and carries no
information, so it is not modelled). -/
structure Shape where
  label : String
  points : List (ℚ × ℚ)
  group_id : ℤ
  shape_type : String
deriving DecidableEq

/-- Python truthiness of an optional boolean (`if draw_skeleton:` where the
value may be `None`): `None` is falsy. -/
def pyTruthy : Option Bool → Bool
  | none => false
  | some b => b

/-- Python `arg or fallback` for an optional numeric argument: `None` and
`0` are falsy, every other number is truthy. -/
def pyOrQ (arg : Option ℚ) (fallback : ℚ) : ℚ :=
  match arg with
  | some v => if v = 0 then fallback else v
  | none => fallback

/-! ### Shape projection (`get_shapes_from_poses`) -/

/-- The point shape appended for keypoint index `j` of a pose
(`{"label": COCO_KEYPOINTS[j], "points": [[x, y]], "group_id": gid,
"shape_type": "point"}`). -/
def kptShape (j : ℕ) (k : Keypoint) (gid : ℤ) : Shape :=
  { label := COCO_KEYPOINTS.getD j ""
    points := [(k.x, k.y)]
    group_id := gid
    shape_type := "point" }

/-- The label `f"limb_{p1_name}_{p2_name}"` of a skeleton edge. -/
def limb_label (a b : ℕ) : String :=
  "limb_" ++ COCO_KEYPOINTS.getD a "" ++ "_" ++ COCO_KEYPOINTS.getD b ""

/-- The line shape appended for skeleton edge `(a, b)`. -/
def limbShape (a b : ℕ) (p q : Keypoint) (gid : ℤ) : Shape :=
  { label := limb_label a b
    points := [(p.x, p.y), (q.x, q.y)]
    group_id := gid
    shape_type := "line" }

/-- Inner loop `for j, (x, y, conf) in enumerate(kpts): if conf > 0: append`
of `get_shapes_from_poses`, with `j` the running enumeration index. -/
def point_shapes_from : List Keypoint → ℕ → ℤ → List Shape
  | [], _, _ => []
  | k :: rest, j, gid =>
    (if 0 < k.conf then [kptShape j k gid] else []) ++ point_shapes_from rest (j + 1) gid

/-- Skeleton loop of `get_shapes_from_poses`: one line shape per edge of
`COCO_SKELETON` whose two endpoint keypoints both have `conf > 0`. -/
def skeleton_shapes (kpts : List Keypoint) (gid : ℤ) : List Shape :=
  COCO_SKELETON.filterMap fun e =>
    let p1 := kpts.getD e.1 kp0
    let p2 := kpts.getD e.2 kp0
    if 0 < p1.conf ∧ 0 < p2.conf then some (limbShape e.1 e.2 p1 p2 gid) else none

/-- Shapes emitted for one pose: its point shapes, then (when
`draw_skeleton` is truthy) its skeleton line shapes. -/
def pose_shapes (kpts : List Keypoint) (gid : ℤ) (ds : Bool) : List Shape :=
  point_shapes_from kpts 0 gid ++ if ds then skeleton_shapes kpts gid else []

/-- Outer loop of `get_shapes_from_poses`: pose `i` receives group id
`start_group_id + i`, carried here as the running `gid`.  (The loop also
reads `scores[i]` into a local `score` variable that the source never uses,
so scores do not appear in the embedding.) -/
def get_shapes_go : List Pose → ℤ → Bool → List Shape
  | [], _, _ => []
  | kpts :: rest, gid, ds => pose_shapes kpts gid ds ++ get_shapes_go rest (gid + 1) ds

/-- `get_shapes_from_poses(keypoints, scores, start_group_id, draw_skeleton)`. -/
def get_shapes_from_poses (keypoints : List Pose) (start_group_id : ℤ)
    (draw_skeleton : Bool) : List Shape :=
  get_shapes_go keypoints start_group_id draw_skeleton

/-! ### Configuration resolution (`PoseEstimator.__init__`) -/

/-- The fields that `ConfigLoader.get_pose_estimation_config()` may supply
(absent keys fall back to the literal defaults written in `__init__` and in
the detectors' `advanced_params.get` calls). -/
structure PoseConfigFile where
  conf_threshold : Option ℚ
  keypoint_threshold : Option ℚ
  draw_skeleton : Option Bool
  min_keypoints : Option ℤ
  max_poses : Option ℤ
deriving DecidableEq

/-- `self.conf_threshold = conf_threshold or pose_config.get("conf_threshold", 0.5)`. -/
def resolve_conf_threshold (arg : Option ℚ) (cfg : PoseConfigFile) : ℚ :=
  pyOrQ arg (cfg.conf_threshold.getD (1/2))

/-- `self.keypoint_threshold = keypoint_threshold or pose_config.get("keypoint_threshold", 0.2)`. -/
def resolve_keypoint_threshold (arg : Option ℚ) (cfg : PoseConfigFile) : ℚ :=
  pyOrQ arg (cfg.keypoint_threshold.getD (1/5))

/-- `self.draw_skeleton = draw_skeleton if draw_skeleton is not None else
pose_config.get("draw_skeleton", True)`. -/
def resolve_draw_skeleton (arg : Option Bool) (cfg : PoseConfigFile) : Bool :=
  arg.getD (cfg.draw_skeleton.getD true)

/-- `self.advanced_params.get("min_keypoints", 5)` (a plain dict lookup:
an explicit `0` is returned as is). -/
def resolve_min_keypoints (cfg : PoseConfigFile) : ℤ :=
  cfg.min_keypoints.getD 5

/-- `self.advanced_params.get("max_poses", 20)`. -/
def resolve_max_poses (cfg : PoseConfigFile) : ℤ :=
  cfg.max_poses.getD 20

/-- A configuration file with every key absent. -/
def default_pose_config : PoseConfigFile := ⟨none, none, none, none, none⟩

/-! ### KeypointRCNN full-image path (`_detect_keypointrcnn`) -/

/-- `conf = vis / 2.0 if vis > 0 else 0.0`: the visibility-to-confidence
remap of `_detect_keypointrcnn`. -/
def remap_visibility (vis : ℚ) : ℚ :=
  if 0 < vis then vis / 2 else 0

/-- Remap one raw `[x, y, visibility]` triple to `[x, y, confidence]`. -/
def remap_keypoint (k : Keypoint) : Keypoint :=
  ⟨k.x, k.y, remap_visibility k.conf⟩

/-- `sum(1 for _, _, conf in kpts if conf >= keypoint_threshold)`. -/
def visibleCount (kpts : List Keypoint) (kt : ℚ) : ℕ :=
  (kpts.filter fun k => kt ≤ k.conf).length

/-- One raw detection instance as returned by the torchvision model:
a box, an instance score and 17 `[x, y, visibility]` keypoints. -/
structure RawInstance where
  box : ℚ × ℚ × ℚ × ℚ
  score : ℚ
  kpts : List Keypoint
deriving DecidableEq

/-- The `for i, kpts in enumerate(keypoints)` loop of `_detect_keypointrcnn`:
remap visibilities, keep an instance only when its visible-keypoint count
reaches `min_keypoints`, and break as soon as `max_poses` poses are kept
(translated to a remaining-budget recursion: the source appends and then
breaks when the accumulated length reaches `max_poses`). -/
def kprcnn_select : List RawInstance → ℚ → ℤ → ℤ → List Pose × List ℚ
  | [], _, _, _ => ([], [])
  | inst :: rest, kt, minK, maxP =>
    let ks := inst.kpts.map remap_keypoint
    if minK ≤ (visibleCount ks kt : ℤ) then
      if maxP ≤ 1 then ([ks], [inst.score])
      else
        let tail := kprcnn_select rest kt minK (maxP - 1)
        (ks :: tail.1, inst.score :: tail.2)
    else kprcnn_select rest kt minK maxP

/-- Pure post-processing of `_detect_keypointrcnn`: the score mask
`scores >= self.conf_threshold` followed by the selection loop. -/
def detect_keypointrcnn_post (pred : List RawInstance) (ct kt : ℚ)
    (minK maxP : ℤ) : List Pose × List ℚ :=
  kprcnn_select (pred.filter fun inst => ct ≤ inst.score) kt minK maxP

/-! ### Module-level entry points (`detect_poses`, `estimate_poses`) -/

/-- The observable behaviour of one `PoseEstimator` on the call's image:
construction (`__init__` together with `_load_model`) may raise, and each
detection method either raises or returns `(keypoints, scores)`.  Backend
failures (missing runtime, missing weights, inference exceptions) are the
`Except.error` cases. -/
structure EstimatorBehavior where
  construct : Except String Unit
  full_detect : Except String (List Pose × List ℚ)
  boxes_detect : List (ℚ × ℚ × ℚ × ℚ) → Except String (List Pose × List ℚ)

/-- Group-id resolution of `estimate_poses` (lines 1324-1326):
`group_id = existing_person_boxes_ids[0] if ids and ids[0] is not None
else start_group_id`. -/
def resolve_start_group_id (existing_person_boxes_ids : List (Option ℤ))
    (start_group_id : ℤ) : ℤ :=
  match existing_person_boxes_ids with
  | [] => start_group_id
  | first :: _ => first.getD start_group_id

/-- Body of the `try:` block of the module-level `detect_poses`.  Note that
the raw `draw_skeleton` argument (possibly `None`) is forwarded to
`get_shapes_from_poses`, not the estimator's resolved
`self.draw_skeleton`. -/
def detect_poses_body (b : EstimatorBehavior) (start_group_id : ℤ)
    (draw_skeleton : Option Bool) : Except String (List Shape) := do
  let _ ← b.construct
  let r ← b.full_detect
  pure (get_shapes_from_poses r.1 start_group_id (pyTruthy draw_skeleton))

/-- Module-level `detect_poses`: the `try/except Exception` wrapper that
returns `[]` on any failure. -/
def detect_poses (b : EstimatorBehavior) (start_group_id : ℤ)
    (draw_skeleton : Option Bool) : List Shape :=
  match detect_poses_body b start_group_id draw_skeleton with
  | .ok shapes => shapes
  | .error _ => []

/-- Body of the `try:` block of the module-level `estimate_poses`: when
person boxes are supplied and `use_detection_results` is `None` or truthy,
detect from the boxes; when that yields no keypoints, fall back to plain
full-image detection; then project shapes starting at the resolved group
id, again forwarding the raw `draw_skeleton` argument. -/
def estimate_poses_body (b : EstimatorBehavior)
    (existing_person_boxes : List (ℚ × ℚ × ℚ × ℚ))
    (existing_person_boxes_ids : List (Option ℤ))
    (use_detection_results : Option Bool) (start_group_id : ℤ)
    (draw_skeleton : Option Bool) : Except String (List Shape) := do
  let _ ← b.construct
  let r1 ←
    if existing_person_boxes ≠ [] ∧
        (use_detection_results = none ∨ use_detection_results = some true) then
      b.boxes_detect existing_person_boxes
    else
      pure (([], []) : List Pose × List ℚ)
  let r2 ← if r1.1 = [] then b.full_detect else pure r1
  let gid := resolve_start_group_id existing_person_boxes_ids start_group_id
  pure (get_shapes_from_poses r2.1 gid (pyTruthy draw_skeleton))

/-- Module-level `estimate_poses`: the `try/except Exception` wrapper that
returns `[]` on any failure. -/
def estimate_poses (b : EstimatorBehavior)
    (existing_person_boxes : List (ℚ × ℚ × ℚ × ℚ))
    (existing_person_boxes_ids : List (Option ℤ))
    (use_detection_results : Option Bool) (start_group_id : ℤ)
    (draw_skeleton : Option Bool) : List Shape :=
  match estimate_poses_body b existing_person_boxes existing_person_boxes_ids
      use_detection_results start_group_id draw_skeleton with
  | .ok shapes => shapes
  | .error _ => []

/-! ### Projection lemmas -/

/-- Every shape emitted by the per-keypoint loop records the keypoint at
some in-range index whose confidence is positive. -/
theorem point_shapes_from_spec : ∀ (kpts : List Keypoint) (j : ℕ) (g : ℤ) (s : Shape),
    s ∈ point_shapes_from kpts j g →
    ∃ i, i < kpts.length ∧ 0 < (kpts.getD i kp0).conf ∧
      s = kptShape (j + i) (kpts.getD i kp0) g := by
  intro kpts
  induction kpts with
  | nil => intro j g s hs; simp [point_shapes_from] at hs
  | cons k rest ih =>
    intro j g s hs
    simp only [point_shapes_from, List.mem_append] at hs
    rcases hs with hs | hs
    · by_cases hk : 0 < k.conf
      · rw [if_pos hk] at hs
        simp only [List.mem_singleton] at hs
        exact ⟨0, by simp, by simpa using hk, by simpa using hs⟩
      · rw [if_neg hk] at hs
        simp at hs
    · obtain ⟨i, hi, hconf, hshape⟩ := ih (j + 1) g s hs
      refine ⟨i + 1, by simpa using Nat.succ_lt_succ hi, by simpa using hconf, ?_⟩
      have harith : j + (i + 1) = (j + 1) + i := by omega
      rw [harith]
      simpa using hshape

/-- A keypoint with positive confidence does produce its point shape. -/
theorem point_shapes_from_mem_intro : ∀ (kpts : List Keypoint) (j : ℕ) (g : ℤ) (i : ℕ),
    i < kpts.length → 0 < (kpts.getD i kp0).conf →
    kptShape (j + i) (kpts.getD i kp0) g ∈ point_shapes_from kpts j g := by
  intro kpts
  induction kpts with
  | nil => intro j g i hi; simp at hi
  | cons k rest ih =>
    intro j g i hi hconf
    cases i with
    | zero =>
      simp only [List.getD_cons_zero] at hconf ⊢
      simp only [point_shapes_from, List.mem_append]
      left
      rw [if_pos hconf]
      simp
    | succ i =>
      simp only [List.getD_cons_succ] at hconf ⊢
      simp only [point_shapes_from, List.mem_append]
      right
      have harith : j + (i + 1) = (j + 1) + i := by omega
      rw [harith]
      exact ih (j + 1) g i (by simpa using hi) hconf

/-- Characterization of the skeleton line shapes: one per canonical edge
whose two endpoints both have positive confidence. -/
theorem mem_skeleton_shapes {kpts : List Keypoint} {g : ℤ} {s : Shape} :
    s ∈ skeleton_shapes kpts g ↔
    ∃ e, e ∈ COCO_SKELETON ∧ 0 < (kpts.getD e.1 kp0).conf ∧
      0 < (kpts.getD e.2 kp0).conf ∧
      s = limbShape e.1 e.2 (kpts.getD e.1 kp0) (kpts.getD e.2 kp0) g := by
  simp only [skeleton_shapes, List.mem_filterMap]
  constructor
  · rintro ⟨e, he, hf⟩
    by_cases h : 0 < (kpts.getD e.1 kp0).conf ∧ 0 < (kpts.getD e.2 kp0).conf
    · rw [if_pos h] at hf
      exact ⟨e, he, h.1, h.2, (Option.some.injEq _ _ ▸ hf).symm⟩
    · rw [if_neg h] at hf
      simp at hf
  · rintro ⟨e, he, h1, h2, rfl⟩
    exact ⟨e, he, by rw [if_pos ⟨h1, h2⟩]⟩

/-- Every shape emitted for one pose carries that pose's group id. -/
theorem pose_shapes_group : ∀ (kpts : List Keypoint) (g : ℤ) (ds : Bool) (s : Shape),
    s ∈ pose_shapes kpts g ds → s.group_id = g := by
  intro kpts g ds s hs
  rcases List.mem_append.mp hs with h | h
  · obtain ⟨i, _, _, rfl⟩ := point_shapes_from_spec kpts 0 g s h
    rfl
  · cases ds with
    | false => simp at h
    | true =>
      obtain ⟨e, _, _, _, rfl⟩ := mem_skeleton_shapes.mp (by simpa using h)
      rfl

/-- Every shape emitted without skeleton drawing is a point shape. -/
theorem pose_shapes_no_skeleton_type : ∀ (kpts : List Keypoint) (g : ℤ) (s : Shape),
    s ∈ pose_shapes kpts g false → s.shape_type = "point" := by
  intro kpts g s hs
  rcases List.mem_append.mp hs with h | h
  · obtain ⟨i, _, _, rfl⟩ := point_shapes_from_spec kpts 0 g s h
    rfl
  · simp at h

/-- Shapes of the whole projection: pose `i` contributes shapes with group
id `start + i`. -/
theorem get_shapes_go_group : ∀ (poses : List Pose) (g : ℤ) (ds : Bool) (s : Shape),
    s ∈ get_shapes_go poses g ds → ∃ i : ℕ, i < poses.length ∧ s.group_id = g + i := by
  intro poses
  induction poses with
  | nil => intro g ds s hs; simp [get_shapes_go] at hs
  | cons kpts rest ih =>
    intro g ds s hs
    simp only [get_shapes_go, List.mem_append] at hs
    rcases hs with hs | hs
    · exact ⟨0, by simp, by simpa using pose_shapes_group kpts g ds s hs⟩
    · obtain ⟨i, hi, hgid⟩ := ih (g + 1) ds s hs
      refine ⟨i + 1, by simpa using Nat.succ_lt_succ hi, ?_⟩
      rw [hgid]
      push_cast
      ring

/-- With `draw_skeleton` falsy the whole projection emits only point
shapes. -/
theorem get_shapes_from_poses_no_line : ∀ (poses : List Pose) (g : ℤ) (s : Shape),
    s ∈ get_shapes_from_poses poses g false → s.shape_type = "point" := by
  intro poses
  induction poses with
  | nil => intro g s hs; simp [get_shapes_from_poses, get_shapes_go] at hs
  | cons kpts rest ih =>
    intro g s hs
    simp only [get_shapes_from_poses, get_shapes_go, List.mem_append] at hs
    rcases hs with hs | hs
    · exact pose_shapes_no_skeleton_type kpts g s hs
    · exact ih (g + 1) s hs

/-! ### Facade lemmas -/

/-- A successful `detect_poses` body always projects some keypoint list with
the raw truthiness of the `draw_skeleton` argument. -/
theorem detect_poses_body_ok {b : EstimatorBehavior} {sg : ℤ} {ds : Option Bool}
    {s : List Shape} (h : detect_poses_body b sg ds = Except.ok s) :
    ∃ k, s = get_shapes_from_poses k sg (pyTruthy ds) := by
  cases hc : b.construct with
  | error e => simp [detect_poses_body, hc, Bind.bind, Except.bind] at h
  | ok u =>
    cases hf : b.full_detect with
    | error e => simp [detect_poses_body, hc, hf, Bind.bind, Except.bind] at h
    | ok r =>
      refine ⟨r.1, ?_⟩
      simp [detect_poses_body, hc, hf, Bind.bind, Except.bind, Pure.pure, Except.pure] at h
      exact h.symm

/-- A successful `estimate_poses` body always projects some keypoint list,
starting at the resolved group id, with the raw truthiness of the
`draw_skeleton` argument. -/
theorem estimate_poses_body_ok {b : EstimatorBehavior}
    {boxes : List (ℚ × ℚ × ℚ × ℚ)} {ids : List (Option ℤ)}
    {ud : Option Bool} {sg : ℤ} {ds : Option Bool} {s : List Shape}
    (h : estimate_poses_body b boxes ids ud sg ds = Except.ok s) :
    ∃ k, s = get_shapes_from_poses k (resolve_start_group_id ids sg) (pyTruthy ds) := by
  cases hc : b.construct with
  | error e => simp [estimate_poses_body, hc, Bind.bind, Except.bind] at h
  | ok u =>
    by_cases hcond : boxes ≠ [] ∧ (ud = none ∨ ud = some true)
    · cases hb : b.boxes_detect boxes with
      | error e =>
        simp [estimate_poses_body, hc, hcond, hb, Bind.bind, Except.bind] at h
      | ok r1 =>
        by_cases hk : r1.1 = []
        · cases hf : b.full_detect with
          | error e =>
            simp [estimate_poses_body, hc, hcond, hb, hk, hf, Bind.bind, Except.bind,
              Pure.pure, Except.pure] at h
          | ok r2 =>
            refine ⟨r2.1, ?_⟩
            simp [estimate_poses_body, hc, hcond, hb, hk, hf, Bind.bind, Except.bind,
              Pure.pure, Except.pure] at h
            exact h.symm
        · refine ⟨r1.1, ?_⟩
          simp [estimate_poses_body, hc, hcond, hb, hk, Bind.bind, Except.bind,
            Pure.pure, Except.pure] at h
          exact h.symm
    · cases hf : b.full_detect with
      | error e =>
        simp [estimate_poses_body, hc, hcond, hf, Bind.bind, Except.bind,
          Pure.pure, Except.pure] at h
      | ok r2 =>
        refine ⟨r2.1, ?_⟩
        simp [estimate_poses_body, hc, hcond, hf, Bind.bind, Except.bind,
          Pure.pure, Except.pure] at h
        exact h.symm

/-! ### Claim C2 -/

/-- Claim C2: no exception escapes the two module-level entry points; both
are total functions into shape lists, and whenever the wrapped body fails
the result is the empty list. -/
theorem c2_theorem : ∀ (b : EstimatorBehavior) (sg : ℤ) (ds : Option Bool)
    (boxes : List (ℚ × ℚ × ℚ × ℚ)) (ids : List (Option ℤ)) (ud : Option Bool)
    (sg2 : ℤ) (ds2 : Option Bool),
    (detect_poses b sg ds = [] ∨
      ∃ s, detect_poses_body b sg ds = Except.ok s ∧ detect_poses b sg ds = s)
    ∧ (estimate_poses b boxes ids ud sg2 ds2 = [] ∨
      ∃ s, estimate_poses_body b boxes ids ud sg2 ds2 = Except.ok s ∧
        estimate_poses b boxes ids ud sg2 ds2 = s) := by
  intro b sg ds boxes ids ud sg2 ds2
  constructor
  · cases h : detect_poses_body b sg ds with
    | error e => left; simp [detect_poses, h]
    | ok s => right; exact ⟨s, rfl, by simp [detect_poses, h]⟩
  · cases h : estimate_poses_body b boxes ids ud sg2 ds2 with
    | error e => left; simp [estimate_poses, h]
    | ok s => right; exact ⟨s, rfl, by simp [estimate_poses, h]⟩

/-! ### Claim C10 -/

/-- Claim C10: with the `draw_skeleton` argument omitted (`None`), both
entry points forward the raw falsy value to the projection, so no line
shape is ever returned — even though the estimator's own resolved
configuration value defaults to true. -/
theorem c10_theorem : ∀ (b : EstimatorBehavior) (sg : ℤ)
    (boxes : List (ℚ × ℚ × ℚ × ℚ)) (ids : List (Option ℤ)) (ud : Option Bool)
    (sg2 : ℤ),
    ((detect_poses b sg none).all fun s => s.shape_type != "line") = true
    ∧ ((estimate_poses b boxes ids ud sg2 none).all fun s => s.shape_type != "line") = true
    ∧ resolve_draw_skeleton none default_pose_config = true
    ∧ pyTruthy none = false := by
  intro b sg boxes ids ud sg2
  refine ⟨?_, ?_, rfl, rfl⟩
  · rw [List.all_eq_true]
    intro s hs
    cases h : detect_poses_body b sg none with
    | error e => rw [detect_poses, h] at hs; simp at hs
    | ok l =>
      rw [detect_poses, h] at hs
      obtain ⟨k, rfl⟩ := detect_poses_body_ok h
      have := get_shapes_from_poses_no_line k sg s hs
      simp [this]
  · rw [List.all_eq_true]
    intro s hs
    cases h : estimate_poses_body b boxes ids ud sg2 none with
    | error e => rw [estimate_poses, h] at hs; simp at hs
    | ok l =>
      rw [estimate_poses, h] at hs
      obtain ⟨k, rfl⟩ := estimate_poses_body_ok h
      have := get_shapes_from_poses_no_line k (resolve_start_group_id ids sg2) s hs
      simp [this]

/-! ### Claim C1 -/

/-- A behaviour whose box-guided detection yields two single-keypoint poses
(the second one notionally originating from the second supplied box). -/
def cxBehavior : EstimatorBehavior :=
  { construct := Except.ok ()
    full_detect := Except.ok ([], [])
    boxes_detect := fun _ => Except.ok ([[⟨1, 2, 1⟩], [⟨3, 4, 1⟩]], [9/10, 9/10]) }

/-- Claim C1 counterexample: with box group ids `[7, 9]`, the second pose's
shapes receive group id `8 = 7 + 1`, not the second box's id `9` — box ids
are never carried per pose; only `ids[0]` seeds the sequential counter. -/
theorem c1_counterexample :
    ((estimate_poses cxBehavior [(0, 0, 100, 100), (110, 0, 210, 100)]
        [some 7, some 9] none 0 (some false)).map Shape.group_id = [7, 8])
    ∧ [(7 : ℤ), 8] ≠ [7, 9] := by
  exact ⟨by decide, by decide⟩

/-- Claim C1 (amended): the projection never uses per-box identifiers; the
resolved start id depends only on the first supplied box id, and pose `i`'s
shapes all carry `resolved_start + i`. -/
theorem c1_theorem :
    (∀ (a : Option ℤ) (t t2 : List (Option ℤ)) (sg : ℤ),
        resolve_start_group_id (a :: t) sg = resolve_start_group_id (a :: t2) sg)
    ∧ (∀ (poses : List Pose) (gid : ℤ) (ds : Bool) (s : Shape),
        s ∈ get_shapes_from_poses poses gid ds →
        ∃ i : ℕ, i < poses.length ∧ s.group_id = gid + i) := by
  constructor
  · intro a t t2 sg
    rfl
  · intro poses gid ds s hs
    exact get_shapes_go_group poses gid ds s hs

/-- Claim C1 witness: the amended statement applied at a concrete
single-pose projection. -/
theorem c1_witness :
    kptShape 0 ⟨1, 2, 1⟩ 5 ∈ get_shapes_from_poses [[⟨1, 2, 1⟩]] 5 false
    ∧ ∃ i : ℕ, i < ([[(⟨1, 2, 1⟩ : Keypoint)]] : List Pose).length ∧
        (kptShape 0 ⟨1, 2, 1⟩ 5).group_id = 5 + i :=
  ⟨by decide, c1_theorem.2 [[⟨1, 2, 1⟩]] 5 false (kptShape 0 ⟨1, 2, 1⟩ 5) (by decide)⟩

/-! ### KeypointRCNN box-guided path (`_detect_keypointrcnn_from_boxes`) -/

/-- Python `int(q)`: truncation toward zero. -/
def pyInt (q : ℚ) : ℤ := if 0 ≤ q then ⌊q⌋ else -⌊-q⌋

/-- `max(0, min(coord, limit - 1))`: clamping of one box coordinate to the
image bounds. -/
def clampCoord (v lim : ℤ) : ℤ := max 0 (min v (lim - 1))

/-- `mask = keypoints[:, 2] < keypoint_threshold; keypoints[mask, 2] = 0`:
zero out sub-threshold keypoint confidences. -/
def zeroOutLow (kt : ℚ) (kpts : List Keypoint) : List Keypoint :=
  kpts.map fun k => if k.conf < kt then ⟨k.x, k.y, 0⟩ else k

/-- Region (cropped-image) inference outcome for one box: the first
predicted instance's keypoints (in crop coordinates) and box score, or
`none` when the crop yields no keypoints. -/
structure RegionResult where
  kpts : List Keypoint
  score : ℚ

/-- One instance of the full-image prediction: predicted box, keypoints in
full-image coordinates, and box score. -/
structure FullInst where
  box : ℚ × ℚ × ℚ × ℚ
  kpts : List Keypoint
  score : ℚ

/-- The IoU computed in `_detect_keypointrcnn_from_boxes` between the
clamped known box and one predicted box; the source only computes it under
strict overlap, so the no-overlap value is 0 here (in that case the source
performs no comparison at all, which coincides because the best-so-far
value never drops below 0). -/
def iou_q (box : ℤ × ℤ × ℤ × ℤ) (pb : ℚ × ℚ × ℚ × ℚ) : ℚ :=
  let ix1 := max (box.1 : ℚ) pb.1
  let iy1 := max (box.2.1 : ℚ) pb.2.1
  let ix2 := min (box.2.2.1 : ℚ) pb.2.2.1
  let iy2 := min (box.2.2.2 : ℚ) pb.2.2.2
  if ix1 < ix2 ∧ iy1 < iy2 then
    let inter := (ix2 - ix1) * (iy2 - iy1)
    let boxArea := (((box.2.2.1 - box.1) * (box.2.2.2 - box.2.1) : ℤ) : ℚ)
    let predArea := (pb.2.2.1 - pb.1) * (pb.2.2.2 - pb.2.1)
    inter / (boxArea + predArea - inter)
  else 0

/-- The `best_iou / best_idx` scan over the full-image predicted boxes
(`best_iou = 0`, `best_idx = -1`, update whenever `iou > best_iou`). -/
def best_iou_go (box : ℤ × ℤ × ℤ × ℤ) : List FullInst → ℕ → ℚ → ℤ → ℚ × ℤ
  | [], _, bi, bidx => (bi, bidx)
  | p :: rest, i, bi, bidx =>
    let v := iou_q box p.box
    if bi < v then best_iou_go box rest (i + 1) v (i : ℤ)
    else best_iou_go box rest (i + 1) bi bidx

/-- `if best_idx >= 0 and best_iou > 0.3:` pick the matched full-image
instance, else none. -/
def iou_fallback_pick (box : ℤ × ℤ × ℤ × ℤ) (full : List FullInst) :
    Option FullInst :=
  let r := best_iou_go box full 0 0 (-1)
  if 0 ≤ r.2 ∧ 3/10 < r.1 then full.get? r.2.toNat else none

/-- Accumulated state of the per-box loop: the `keypoints_list` and
`scores_list` built up by Python appends, plus an instrumentation counter
of how many times the full-image inference (`self.model(image_tensor)` in
the fallback branch) has been executed. -/
structure BoxLoopState where
  poses : List Pose
  scores : List ℚ
  fullRuns : ℕ
deriving DecidableEq

/-- The `for box in boxes:` loop of `_detect_keypointrcnn_from_boxes`:
clamp, skip boxes under 10 px per side, run region inference; keypoints
found and score above `conf_threshold` append a zeroed-out pose; a crop
with no keypoints triggers the full-image fallback (running the full
inference again, counter incremented) only while `keypoints_list` is still
empty, appending the IoU-matched instance when one qualifies.  There is no
`min_keypoints` filtering on this path. -/
def kprcnn_boxes_go (W H : ℤ) (region : ℤ × ℤ × ℤ × ℤ → Option RegionResult)
    (full : List FullInst) (ct kt : ℚ) :
    List (ℚ × ℚ × ℚ × ℚ) → BoxLoopState → BoxLoopState
  | [], st => st
  | b :: rest, st =>
    let x1 := clampCoord (pyInt b.1) W
    let y1 := clampCoord (pyInt b.2.1) H
    let x2 := clampCoord (pyInt b.2.2.1) W
    let y2 := clampCoord (pyInt b.2.2.2) H
    if x2 - x1 < 10 ∨ y2 - y1 < 10 then
      kprcnn_boxes_go W H region full ct kt rest st
    else
      match region (x1, y1, x2, y2) with
      | some r =>
        if ct ≤ r.score then
          kprcnn_boxes_go W H region full ct kt rest
            { poses := st.poses ++
                [zeroOutLow kt (r.kpts.map fun k => ⟨k.x + x1, k.y + y1, k.conf⟩)]
              scores := st.scores ++ [r.score]
              fullRuns := st.fullRuns }
        else kprcnn_boxes_go W H region full ct kt rest st
      | none =>
        if st.poses = [] then
          match iou_fallback_pick (x1, y1, x2, y2) full with
          | some inst =>
            kprcnn_boxes_go W H region full ct kt rest
              { poses := st.poses ++ [zeroOutLow kt inst.kpts]
                scores := st.scores ++ [inst.score]
                fullRuns := st.fullRuns + 1 }
          | none =>
            kprcnn_boxes_go W H region full ct kt rest
              { poses := st.poses, scores := st.scores, fullRuns := st.fullRuns + 1 }
        else kprcnn_boxes_go W H region full ct kt rest st

/-- `_detect_keypointrcnn_from_boxes`, starting from empty accumulators. -/
def detect_keypointrcnn_from_boxes (W H : ℤ)
    (region : ℤ × ℤ × ℤ × ℤ → Option RegionResult) (full : List FullInst)
    (ct kt : ℚ) (boxes : List (ℚ × ℚ × ℚ × ℚ)) : BoxLoopState :=
  kprcnn_boxes_go W H region full ct kt boxes ⟨[], [], 0⟩

/-! ### Claim C3 -/

/-- Every pose kept by the `_detect_keypointrcnn` selection loop has at
least `min_keypoints` keypoints at or above the keypoint threshold. -/
theorem kprcnn_select_visible : ∀ (l : List RawInstance) (kt : ℚ) (minK maxP : ℤ),
    ∀ p ∈ (kprcnn_select l kt minK maxP).1, minK ≤ (visibleCount p kt : ℤ) := by
  intro l
  induction l with
  | nil => intro kt minK maxP p hp; simp [kprcnn_select] at hp
  | cons inst rest ih =>
    intro kt minK maxP p hp
    simp only [kprcnn_select] at hp
    by_cases hvis : minK ≤ (visibleCount (inst.kpts.map remap_keypoint) kt : ℤ)
    · rw [if_pos hvis] at hp
      by_cases hmax : maxP ≤ 1
      · rw [if_pos hmax] at hp
        simp only [List.mem_singleton] at hp
        subst hp; exact hvis
      · rw [if_neg hmax] at hp
        rcases List.mem_cons.mp hp with rfl | hp
        · exact hvis
        · exact ih kt minK (maxP - 1) p hp
    · rw [if_neg hvis] at hp
      exact ih kt minK maxP p hp

/-- Every score kept by the selection loop is the score of one of the input
instances. -/
theorem kprcnn_select_scores : ∀ (l : List RawInstance) (kt : ℚ) (minK maxP : ℤ),
    ∀ sc ∈ (kprcnn_select l kt minK maxP).2, ∃ inst, inst ∈ l ∧ sc = inst.score := by
  intro l
  induction l with
  | nil => intro kt minK maxP sc hsc; simp [kprcnn_select] at hsc
  | cons inst rest ih =>
    intro kt minK maxP sc hsc
    simp only [kprcnn_select] at hsc
    by_cases hvis : minK ≤ (visibleCount (inst.kpts.map remap_keypoint) kt : ℤ)
    · rw [if_pos hvis] at hsc
      by_cases hmax : maxP ≤ 1
      · rw [if_pos hmax] at hsc
        simp only [List.mem_singleton] at hsc
        exact ⟨inst, List.mem_cons_self _ _, hsc⟩
      · rw [if_neg hmax] at hsc
        rcases List.mem_cons.mp hsc with rfl | hsc
        · exact ⟨inst, List.mem_cons_self _ _, rfl⟩
        · obtain ⟨inst2, h1, h2⟩ := ih kt minK (maxP - 1) sc hsc
          exact ⟨inst2, List.mem_cons_of_mem _ h1, h2⟩
    · rw [if_neg hvis] at hsc
      obtain ⟨inst2, h1, h2⟩ := ih kt minK maxP sc hsc
      exact ⟨inst2, List.mem_cons_of_mem _ h1, h2⟩

/-- Claim C3 counterexample: a box-guided detection whose region result has
instance score 9/10 but only 3 keypoints at or above the keypoint threshold
(with `min_keypoints = 5` in force) is kept and exposed by
`_detect_keypointrcnn_from_boxes` — the box-guided path applies no
minimum-keypoint filter — while the full-image path drops the analogous
instance. -/
theorem c3_counterexample :
    ((detect_keypointrcnn_from_boxes 1000 1000
        (fun _ => some ⟨List.replicate 3 ⟨0, 0, 9/10⟩ ++ List.replicate 14 ⟨0, 0, 1/20⟩, 9/10⟩)
        [] (1/2) (1/5) [(0, 0, 100, 100)]).poses.length = 1)
    ∧ visibleCount ((detect_keypointrcnn_from_boxes 1000 1000
        (fun _ => some ⟨List.replicate 3 ⟨0, 0, 9/10⟩ ++ List.replicate 14 ⟨0, 0, 1/20⟩, 9/10⟩)
        [] (1/2) (1/5) [(0, 0, 100, 100)]).poses.getD 0 []) (1/5) = 3
    ∧ (3 : ℤ) < 5
    ∧ detect_keypointrcnn_post
        [⟨(0, 0, 100, 100), 9/10,
          List.replicate 3 ⟨0, 0, 2⟩ ++ List.replicate 14 ⟨0, 0, 0⟩⟩]
        (1/2) (1/5) 5 20 = ([], []) := by
  refine ⟨?_, ?_, by norm_num, ?_⟩ <;>
    norm_num [detect_keypointrcnn_from_boxes, kprcnn_boxes_go, clampCoord, pyInt,
      zeroOutLow, visibleCount, List.replicate, List.filter,
      detect_keypointrcnn_post, kprcnn_select, remap_keypoint, remap_visibility]

/-- Claim C3 (amended): the minimum-visible-keypoints filter is applied in
the full-image keypointrcnn path — every pose it exposes has visible count
at least `min_keypoints` and instance score at least `conf_threshold` — but
the box-guided path applies no such filter (see the counterexample). -/
theorem c3_theorem : ∀ (pred : List RawInstance) (ct kt : ℚ) (minK maxP : ℤ),
    (∀ p ∈ (detect_keypointrcnn_post pred ct kt minK maxP).1,
      minK ≤ (visibleCount p kt : ℤ))
    ∧ (∀ sc ∈ (detect_keypointrcnn_post pred ct kt minK maxP).2, ct ≤ sc) := by
  intro pred ct kt minK maxP
  constructor
  · intro p hp
    exact kprcnn_select_visible _ kt minK maxP p hp
  · intro sc hsc
    obtain ⟨inst, hmem, rfl⟩ := kprcnn_select_scores _ kt minK maxP sc hsc
    have := (List.mem_filter.mp hmem).2
    exact of_decide_eq_true this

/-- Claim C3 witness: the amended statement applied to one concrete
full-image prediction list. -/
theorem c3_witness :
    (⟨0, 0, 1⟩ : Keypoint) :: List.replicate 16 ⟨0, 0, 1⟩ ∈
      (detect_keypointrcnn_post
        [⟨(0, 0, 50, 50), 9/10, List.replicate 17 ⟨0, 0, 2⟩⟩] (1/2) (1/5) 5 20).1
    ∧ (5 : ℤ) ≤ (visibleCount ((⟨0, 0, 1⟩ : Keypoint) :: List.replicate 16 ⟨0, 0, 1⟩) (1/5) : ℤ) := by
  have hmem : (⟨0, 0, 1⟩ : Keypoint) :: List.replicate 16 (⟨0, 0, 1⟩ : Keypoint) ∈
      (detect_keypointrcnn_post
        [⟨(0, 0, 50, 50), 9/10, List.replicate 17 ⟨0, 0, 2⟩⟩] (1/2) (1/5) 5 20).1 := by
    norm_num [detect_keypointrcnn_post, kprcnn_select, visibleCount, remap_keypoint,
      remap_visibility, List.replicate, List.filter]
  exact ⟨hmem,
    (c3_theorem [⟨(0, 0, 50, 50), 9/10, List.replicate 17 ⟨0, 0, 2⟩⟩] (1/2) (1/5) 5 20).1
      _ hmem⟩

/-! ### Claim C9 -/

/-- Claim C9 counterexample: no clamping happens at load time — a negative
`conf_threshold` is used verbatim, an explicit `min_keypoints` of 0 is kept
as 0, and with it the full-image pipeline keeps a pose with zero visible
keypoints. -/
theorem c9_counterexample :
    resolve_conf_threshold (some (-1)) default_pose_config = -1
    ∧ resolve_min_keypoints
        { default_pose_config with min_keypoints := some 0 } = 0
    ∧ (detect_keypointrcnn_post
        [⟨(0, 0, 10, 10), 9/10, List.replicate 17 ⟨0, 0, 0⟩⟩]
        (1/2) (1/5) 0 20).1.length = 1 := by
  refine ⟨by norm_num [resolve_conf_threshold, pyOrQ], by norm_num [resolve_min_keypoints], ?_⟩
  norm_num [detect_keypointrcnn_post, kprcnn_select, visibleCount, remap_keypoint,
    remap_visibility, List.replicate, List.filter]

/-- Claim C9 (amended): configuration values are used verbatim, not
clamped: any nonzero threshold argument (negative included) is resolved to
itself, an explicitly configured `min_keypoints` (0 included) is resolved
to itself, and with `min_keypoints ≤ 0` the visible-count filter never
drops the head instance.  (The only substitution is Python truthiness: a
threshold argument of exactly 0 or None falls back to the configuration
value or default.) -/
theorem c9_theorem :
    (∀ (q : ℚ) (cfg : PoseConfigFile), q ≠ 0 →
      resolve_conf_threshold (some q) cfg = q)
    ∧ (∀ (q : ℚ) (cfg : PoseConfigFile), q ≠ 0 →
      resolve_keypoint_threshold (some q) cfg = q)
    ∧ (∀ (n : ℤ) (cfg : PoseConfigFile), cfg.min_keypoints = some n →
      resolve_min_keypoints cfg = n)
    ∧ (∀ (inst : RawInstance) (rest : List RawInstance) (kt : ℚ) (minK maxP : ℤ),
      minK ≤ 0 →
      (kprcnn_select (inst :: rest) kt minK maxP).1.head? =
        some (inst.kpts.map remap_keypoint)) := by
  refine ⟨?_, ?_, ?_, ?_⟩
  · intro q cfg hq
    simp [resolve_conf_threshold, pyOrQ, hq]
  · intro q cfg hq
    simp [resolve_keypoint_threshold, pyOrQ, hq]
  · intro n cfg hn
    simp [resolve_min_keypoints, hn]
  · intro inst rest kt minK maxP hm
    have hg : minK ≤ (visibleCount (inst.kpts.map remap_keypoint) kt : ℤ) :=
      le_trans hm (Int.natCast_nonneg _)
    simp only [kprcnn_select]
    rw [if_pos hg]
    by_cases hmax : maxP ≤ 1
    · rw [if_pos hmax]
      rfl
    · rw [if_neg hmax]
      rfl

/-- Claim C9 witness: the amended statement applied at concrete values. -/
theorem c9_witness :
    resolve_conf_threshold (some (-2)) default_pose_config = -2
    ∧ (kprcnn_select [⟨(0, 0, 1, 1), 1, [⟨0, 0, 2⟩]⟩] (1/5) 0 20).1.head? =
        some ((⟨(0, 0, 1, 1), 1, [⟨0, 0, 2⟩]⟩ : RawInstance).kpts.map remap_keypoint) :=
  ⟨c9_theorem.1 (-2) default_pose_config (by norm_num),
   c9_theorem.2.2.2 ⟨(0, 0, 1, 1), 1, [⟨0, 0, 2⟩]⟩ [] (1/5) 0 20 (by norm_num)⟩

/-! ### Claim C5 -/

/-- The best-IoU scan accepts (final index nonnegative and final best IoU
above 3/10) exactly when the initial pair already qualified or some
remaining instance's IoU exceeds 3/10, given the scan invariants that the
running best is nonnegative and positive bests come with recorded
indices. -/
theorem best_iou_go_accept (box : ℤ × ℤ × ℤ × ℤ) :
    ∀ (l : List FullInst) (i : ℕ) (bi : ℚ) (bidx : ℤ),
    0 ≤ bi → (0 < bi → 0 ≤ bidx) →
    ((0 ≤ (best_iou_go box l i bi bidx).2 ∧ 3/10 < (best_iou_go box l i bi bidx).1) ↔
      ((0 ≤ bidx ∧ 3/10 < bi) ∨ ∃ p ∈ l, 3/10 < iou_q box p.box)) := by
  intro l
  induction l with
  | nil =>
    intro i bi bidx h0 hinv
    simp [best_iou_go]
  | cons p rest ih =>
    intro i bi bidx h0 hinv
    simp only [best_iou_go]
    by_cases hv : bi < iou_q box p.box
    · rw [if_pos hv]
      rw [ih (i + 1) (iou_q box p.box) i (le_of_lt (lt_of_le_of_lt h0 hv))
        (fun _ => Int.natCast_nonneg i)]
      constructor
      · rintro (⟨_, hlt⟩ | ⟨q, hq, hlt⟩)
        · exact Or.inr ⟨p, List.mem_cons_self _ _, hlt⟩
        · exact Or.inr ⟨q, List.mem_cons_of_mem _ hq, hlt⟩
      · rintro (⟨_, hbi⟩ | ⟨q, hq, hlt⟩)
        · exact Or.inl ⟨Int.natCast_nonneg i, lt_trans hbi hv⟩
        · rcases List.mem_cons.mp hq with rfl | hq
          · exact Or.inl ⟨Int.natCast_nonneg i, hlt⟩
          · exact Or.inr ⟨q, hq, hlt⟩
    · rw [if_neg hv]
      rw [ih (i + 1) bi bidx h0 hinv]
      constructor
      · rintro (h | ⟨q, hq, hlt⟩)
        · exact Or.inl h
        · exact Or.inr ⟨q, List.mem_cons_of_mem _ hq, hlt⟩
      · rintro (h | ⟨q, hq, hlt⟩)
        · exact Or.inl h
        · rcases List.mem_cons.mp hq with rfl | hq
          · have hle : iou_q box q.box ≤ bi := le_of_not_lt hv
            have hbi : 3/10 < bi := lt_of_lt_of_le hlt hle
            exact Or.inl ⟨hinv (lt_trans (by norm_num) hbi), hbi⟩
          · exact Or.inr ⟨q, hq, hlt⟩

/-- The best index recorded by the scan stays below the number of instances
seen so far. -/
theorem best_iou_go_idx_lt (box : ℤ × ℤ × ℤ × ℤ) :
    ∀ (l : List FullInst) (i : ℕ) (bi : ℚ) (bidx : ℤ),
    bidx < (i : ℤ) → (best_iou_go box l i bi bidx).2 < (i : ℤ) + l.length := by
  intro l
  induction l with
  | nil =>
    intro i bi bidx h
    simpa [best_iou_go] using h
  | cons p rest ih =>
    intro i bi bidx h
    simp only [best_iou_go, List.length_cons]
    by_cases hv : bi < iou_q box p.box
    · rw [if_pos hv]
      have := ih (i + 1) (iou_q box p.box) i (by push_cast; omega)
      push_cast at this ⊢
      omega
    · rw [if_neg hv]
      have := ih (i + 1) bi bidx (by push_cast; omega)
      push_cast at this ⊢
      omega

/-- The fallback match is found exactly when some full-image instance has
IoU with the box strictly above 3/10. -/
theorem iou_fallback_pick_isSome (box : ℤ × ℤ × ℤ × ℤ) (full : List FullInst) :
    (iou_fallback_pick box full).isSome = true ↔
      ∃ p ∈ full, 3/10 < iou_q box p.box := by
  unfold iou_fallback_pick
  have hac := best_iou_go_accept box full 0 0 (-1) le_rfl
    (fun h => absurd h (lt_irrefl 0))
  by_cases hg : 0 ≤ (best_iou_go box full 0 0 (-1)).2 ∧
      3/10 < (best_iou_go box full 0 0 (-1)).1
  · rw [if_pos hg]
    have hidx := best_iou_go_idx_lt box full 0 0 (-1) (by norm_num)
    have h1 := hg.1
    have hlen : (best_iou_go box full 0 0 (-1)).2.toNat < full.length := by
      push_cast at hidx
      omega
    constructor
    · intro _
      rcases hac.mp hg with ⟨hneg, _⟩ | hex
      · norm_num at hneg
      · exact hex
    · intro _
      rw [List.get?_eq_get hlen]
      rfl
  · rw [if_neg hg]
    simp only [Option.isSome_none, Bool.false_eq_true, false_iff]
    intro hex
    exact hg (hac.mpr (Or.inr hex))

/-- Claim C5: the fallback match for a region-less box is accepted exactly
when the IoU exceeds 0.3; concretely, IoU 7/20 = 0.35 yields a matched pose
and IoU 1/4 = 0.25 yields none. -/
theorem c5_theorem :
    (∀ (box : ℤ × ℤ × ℤ × ℤ) (full : List FullInst),
      (iou_fallback_pick box full).isSome = true ↔
        ∃ p ∈ full, 3/10 < iou_q box p.box)
    ∧ iou_q (0, 0, 100, 100) (0, 0, 100, 35) = 7/20
    ∧ iou_q (0, 0, 100, 100) (0, 0, 100, 25) = 1/4
    ∧ (detect_keypointrcnn_from_boxes 1000 1000 (fun _ => none)
        [⟨(0, 0, 100, 35), [⟨5, 5, 9/10⟩], 8/10⟩] (1/2) (1/5)
        [(0, 0, 100, 100)]).poses.length = 1
    ∧ (detect_keypointrcnn_from_boxes 1000 1000 (fun _ => none)
        [⟨(0, 0, 100, 25), [⟨5, 5, 9/10⟩], 8/10⟩] (1/2) (1/5)
        [(0, 0, 100, 100)]).poses = [] := by
  refine ⟨iou_fallback_pick_isSome, ?_, ?_, ?_, ?_⟩
  · norm_num [iou_q, max_def, min_def]
  · norm_num [iou_q, max_def, min_def]
  · norm_num [detect_keypointrcnn_from_boxes, kprcnn_boxes_go, clampCoord, pyInt,
      iou_fallback_pick, best_iou_go, iou_q, zeroOutLow, max_def, min_def, List.get?]
  · norm_num [detect_keypointrcnn_from_boxes, kprcnn_boxes_go, clampCoord, pyInt,
      iou_fallback_pick, best_iou_go, iou_q, zeroOutLow, max_def, min_def, List.get?]

/-- Claim C5 witness: the acceptance equivalence applied at a concrete
instance list whose only IoU is 7/20. -/
theorem c5_witness :
    (iou_fallback_pick (0, 0, 100, 100) [⟨(0, 0, 100, 35), [], 8/10⟩]).isSome = true :=
  (c5_theorem.1 (0, 0, 100, 100) [⟨(0, 0, 100, 35), [], 8/10⟩]).mpr
    ⟨⟨(0, 0, 100, 35), [], 8/10⟩, List.mem_singleton.mpr rfl,
      by norm_num [iou_q, max_def, min_def]⟩

/-! ### Claim C6 -/

/-- Claim C6 counterexample: two failing boxes while no pose has been
found execute the full-image inference twice (it is not memoized), and a
box failing after a pose exists triggers no fallback matching at all —
with the first box matched through the fallback, the second failing box
contributes nothing and the counter stays at 1. -/
theorem c6_counterexample :
    (detect_keypointrcnn_from_boxes 1000 1000 (fun _ => none) [] (1/2) (1/5)
        [(0, 0, 100, 100), (200, 200, 300, 300)]).fullRuns = 2
    ∧ (detect_keypointrcnn_from_boxes 1000 1000 (fun _ => none)
        [⟨(0, 0, 100, 100), [⟨5, 5, 9/10⟩], 8/10⟩] (1/2) (1/5)
        [(0, 0, 100, 100), (200, 200, 300, 300)]).fullRuns = 1
    ∧ (detect_keypointrcnn_from_boxes 1000 1000 (fun _ => none)
        [⟨(0, 0, 100, 100), [⟨5, 5, 9/10⟩], 8/10⟩] (1/2) (1/5)
        [(0, 0, 100, 100), (200, 200, 300, 300)]).poses.length = 1 := by
  refine ⟨?_, ?_, ?_⟩ <;>
    norm_num [detect_keypointrcnn_from_boxes, kprcnn_boxes_go, clampCoord, pyInt,
      iou_fallback_pick, best_iou_go, iou_q, zeroOutLow, max_def, min_def, List.get?]

/-- Claim C6 (amended): the full-image fallback inference executes only
while the accumulated pose list is still empty; once any pose has been
produced, no later box — failing or not — triggers it again (and while the
list stays empty it is re-executed per failing box, not memoized; see the
counterexample). -/
theorem c6_theorem : ∀ (W H : ℤ) (region : ℤ × ℤ × ℤ × ℤ → Option RegionResult)
    (full : List FullInst) (ct kt : ℚ) (boxes : List (ℚ × ℚ × ℚ × ℚ))
    (st : BoxLoopState), st.poses ≠ [] →
    (kprcnn_boxes_go W H region full ct kt boxes st).fullRuns = st.fullRuns := by
  intro W H region full ct kt boxes
  induction boxes with
  | nil => intro st h; rfl
  | cons b rest ih =>
    intro st h
    simp only [kprcnn_boxes_go]
    split
    · exact ih st h
    · split
      · split
        · exact ih _ (by simp)
        · exact ih st h
      · exact ih st h

/-- Claim C6 witness: the invariant applied to a concrete nonempty
accumulator state. -/
theorem c6_witness :
    (kprcnn_boxes_go 1000 1000 (fun _ => none) [] (1/2) (1/5)
      [(0, 0, 100, 100)] ⟨[[⟨0, 0, 1⟩]], [1], 0⟩).fullRuns = 0 :=
  c6_theorem 1000 1000 (fun _ => none) [] (1/2) (1/5) [(0, 0, 100, 100)]
    ⟨[[⟨0, 0, 1⟩]], [1], 0⟩ (by simp)

/-! ### Claim C4 -/

/-- The 17 canonical joint names are pairwise distinct. -/
theorem kname_inj : ∀ i < 17, ∀ i2 < 17,
    COCO_KEYPOINTS.getD i "" = COCO_KEYPOINTS.getD i2 "" → i = i2 := by decide

/-- No limb label of a canonical edge coincides with a joint name. -/
theorem limb_ne_kname : ∀ e ∈ COCO_SKELETON, ∀ i < 17,
    limb_label e.1 e.2 ≠ COCO_KEYPOINTS.getD i "" := by decide

/-- The limb labels of the canonical edges are pairwise distinct. -/
theorem limb_inj : ∀ e ∈ COCO_SKELETON, ∀ e2 ∈ COCO_SKELETON,
    limb_label e.1 e.2 = limb_label e2.1 e2.2 → e = e2 := by decide

/-- Claim C4: in shape projection of a canonical 17-keypoint pose, a
keypoint with confidence exactly 0 produces no point shape and disqualifies
every incident skeleton edge from producing a line shape, while a keypoint
with any strictly positive confidence (however small) produces its point
shape. -/
theorem c4_theorem : ∀ (kpts : List Keypoint) (gid : ℤ) (j : ℕ),
    kpts.length = 17 → j < 17 →
    (((kpts.getD j kp0).conf = 0 →
      ∀ s ∈ pose_shapes kpts gid true,
        s.label ≠ COCO_KEYPOINTS.getD j ""
        ∧ ∀ a b, (a, b) ∈ COCO_SKELETON → (a = j ∨ b = j) →
            s.label ≠ limb_label a b)
    ∧ (0 < (kpts.getD j kp0).conf →
      kptShape j (kpts.getD j kp0) gid ∈ pose_shapes kpts gid true)) := by
  intro kpts gid j h17 hj
  constructor
  · intro h0 s hs
    rcases List.mem_append.mp hs with hp | hsk
    · obtain ⟨i, hi, hconf, rfl⟩ := point_shapes_from_spec kpts 0 gid s hp
      have hi17 : i < 17 := h17 ▸ hi
      constructor
      · intro heq
        have hij : i = j := by
          apply kname_inj i hi17 j hj
          simpa [kptShape, Nat.zero_add] using heq
        rw [hij] at hconf
        exact absurd h0 (ne_of_gt hconf)
      · intro a b hab _ heq
        exact limb_ne_kname (a, b) hab i hi17
          (by simpa [kptShape, Nat.zero_add] using heq.symm)
    · rw [if_pos rfl] at hsk
      obtain ⟨e, he, hc1, hc2, rfl⟩ := mem_skeleton_shapes.mp hsk
      constructor
      · intro heq
        exact limb_ne_kname e he j hj (by simpa [limbShape] using heq)
      · intro a b hab hor heq
        have hee : e = (a, b) := by
          apply limb_inj e he (a, b) hab
          simpa [limbShape] using heq
        rcases hor with rfl | rfl
        · have : 0 < (kpts.getD e.1 kp0).conf := hc1
          rw [hee] at this
          exact absurd h0 (ne_of_gt this)
        · have : 0 < (kpts.getD e.2 kp0).conf := hc2
          rw [hee] at this
          exact absurd h0 (ne_of_gt this)
  · intro hpos
    apply List.mem_append.mpr
    left
    have hjlen : j < kpts.length := by omega
    have := point_shapes_from_mem_intro kpts 0 gid j hjlen hpos
    simpa [Nat.zero_add] using this

/-- A concrete canonical pose: joint 0 invisible (confidence exactly 0),
all other joints at confidence 1. -/
def kptsW : List Keypoint :=
  [⟨0, 0, 0⟩, ⟨1, 1, 1⟩, ⟨2, 2, 1⟩, ⟨3, 3, 1⟩, ⟨4, 4, 1⟩,
   ⟨5, 5, 1⟩, ⟨6, 6, 1⟩, ⟨7, 7, 1⟩, ⟨8, 8, 1⟩,
   ⟨9, 9, 1⟩, ⟨10, 10, 1⟩, ⟨11, 11, 1⟩, ⟨12, 12, 1⟩,
   ⟨13, 13, 1⟩, ⟨14, 14, 1⟩, ⟨15, 15, 1⟩, ⟨16, 16, 1⟩]

/-- Claim C4 witness: the theorem applied to the concrete pose `kptsW`,
producing the point shape of the visible joint 1. -/
theorem c4_witness :
    kptShape 1 (kptsW.getD 1 kp0) 3 ∈ pose_shapes kptsW 3 true :=
  (c4_theorem kptsW 3 1 (by rfl) (by norm_num)).2 (by norm_num [kptsW, kp0])

/-! ### GeometryTransform (`_letterbox` and the yolov7 inverse mapping) -/

/-- Python `round` on an exact value: nearest integer, ties to even. -/
def pyRound (q : ℚ) : ℤ :=
  if q - ⌊q⌋ < 1/2 then ⌊q⌋
  else if 1/2 < q - ⌊q⌋ then ⌊q⌋ + 1
  else if 2 ∣ ⌊q⌋ then ⌊q⌋ else ⌊q⌋ + 1

/-- `r = min(new_shape[0] / shape[0], new_shape[1] / shape[1])` of
`_letterbox` (the `stride` parameter is accepted but never used there). -/
def letterbox_scale (h w target : ℕ) : ℚ :=
  min ((target : ℚ) / h) ((target : ℚ) / w)

/-- One `new_unpad` component: `int(round(extent * r))`. -/
def letterbox_new_unpad (extent : ℕ) (r : ℚ) : ℤ := pyRound (extent * r)

/-- The half padding `dw` (resp. `dh`) of one axis:
`(target - new_unpad) / 2`. -/
def letterbox_halfpad (target extent : ℕ) (r : ℚ) : ℚ :=
  ((target : ℚ) - letterbox_new_unpad extent r) / 2

/-- The integer border added on the leading side of one axis:
`int(round(dw - 0.1))`. -/
def letterbox_border (target extent : ℕ) (r : ℚ) : ℤ :=
  pyRound (letterbox_halfpad target extent r - 1/10)

/-- Geometric action of `_letterbox` on a source coordinate along one axis:
`cv2.resize` to `new_unpad` scales the axis by `new_unpad / extent`, then
`copyMakeBorder` shifts by the leading border. -/
def letterbox_fwd_axis (target extent : ℕ) (r : ℚ) (x : ℚ) : ℚ :=
  x * (letterbox_new_unpad extent r : ℚ) / extent + letterbox_border target extent r

/-- The inverse mapping hard-coded in `_detect_yolov7_pose`:
`(coord - pad) / r` with the unrounded half pad `(target - extent*r)/2`. -/
def unletterbox_axis (target extent : ℕ) (r : ℚ) (x : ℚ) : ℚ :=
  (x - ((target : ℚ) - extent * r) / 2) / r

/-- Letterbox forward transform of a point `(x, y)` of an `h × w` image. -/
def letterbox_fwd (h w target : ℕ) (p : ℚ × ℚ) : ℚ × ℚ :=
  (letterbox_fwd_axis target w (letterbox_scale h w target) p.1,
   letterbox_fwd_axis target h (letterbox_scale h w target) p.2)

/-- Inverse mapping of a padded-canvas point back to `h × w` image space. -/
def unletterbox (h w target : ℕ) (p : ℚ × ℚ) : ℚ × ℚ :=
  (unletterbox_axis target w (letterbox_scale h w target) p.1,
   unletterbox_axis target h (letterbox_scale h w target) p.2)

/-! ### Claim C7 -/

/-- Python rounding moves a value by at most one half. -/
theorem pyRound_dist (q : ℚ) : |(pyRound q : ℚ) - q| ≤ 1/2 := by
  have h1 : (⌊q⌋ : ℚ) ≤ q := Int.floor_le q
  have h2 : q < ⌊q⌋ + 1 := Int.lt_floor_add_one q
  unfold pyRound
  split_ifs with ha hb hc
  · rw [abs_le]
    constructor <;> linarith
  · rw [abs_le]
    push_cast
    constructor <;> linarith
  · rw [abs_le]
    constructor <;> linarith
  · rw [abs_le]
    push_cast
    constructor <;> linarith

/-- One-axis round-trip error bound: applying the forward letterbox action
and then the yolov7 inverse recovers the coordinate only up to
`(27/20) / r`, the residue of rounding the scaled extent and of the integer
border. -/
theorem unletterbox_letterbox_axis (target extent : ℕ) (r x : ℚ)
    (hext : 0 < extent) (hr : 0 < r) (hx0 : 0 ≤ x) (hxe : x ≤ extent) :
    |unletterbox_axis target extent r (letterbox_fwd_axis target extent r x) - x| ≤
      27/20 / r := by
  have hE : (0 : ℚ) < (extent : ℚ) := by exact_mod_cast hext
  have he2 : |(letterbox_new_unpad extent r : ℚ) - extent * r| ≤ 1/2 := by
    unfold letterbox_new_unpad
    exact pyRound_dist _
  have he1 : |(letterbox_border target extent r : ℚ) -
      (letterbox_halfpad target extent r - 1/10)| ≤ 1/2 := by
    unfold letterbox_border
    exact pyRound_dist _
  have key : unletterbox_axis target extent r (letterbox_fwd_axis target extent r x) - x
      = (x * ((letterbox_new_unpad extent r : ℚ) - extent * r) / extent
         + ((letterbox_border target extent r : ℚ) -
            (letterbox_halfpad target extent r - 1/10))
         - 1/10
         - ((letterbox_new_unpad extent r : ℚ) - extent * r) / 2) / r := by
    unfold unletterbox_axis letterbox_fwd_axis letterbox_halfpad
    field_simp
    ring
  rw [key, abs_div, abs_of_pos hr, div_le_div_iff_of_pos_right hr]
  have hxa : |x * ((letterbox_new_unpad extent r : ℚ) - extent * r) / extent| ≤ 1/2 := by
    rw [abs_div, abs_mul, abs_of_nonneg hx0, abs_of_pos hE]
    rw [div_le_iff₀ hE]
    have h3 := abs_nonneg ((letterbox_new_unpad extent r : ℚ) - extent * r)
    nlinarith
  have ha' := abs_le.mp he2
  have hb' := abs_le.mp he1
  have hxa' := abs_le.mp hxa
  rw [abs_le]
  constructor <;> linarith

/-- Claim C7 counterexample: the round trip is not exact (exact rational
arithmetic, no floating point involved): for a 427 × 240 image letterboxed
to 640, the point (10, 10) comes back as (10, 1269/128) = (10, 9.9140625),
off by more than 0.08 px. -/
theorem c7_counterexample :
    unletterbox 240 427 640 (letterbox_fwd 240 427 640 (10, 10)) = (10, 1269/128)
    ∧ (1269/128 : ℚ) ≠ 10 := by
  constructor
  · norm_num [unletterbox, letterbox_fwd, unletterbox_axis, letterbox_fwd_axis,
      letterbox_border, letterbox_halfpad, letterbox_new_unpad, letterbox_scale,
      pyRound, min_def, Prod.ext_iff]
  · norm_num

/-- Claim C7 (amended): for every image size, target size and in-bounds
point, the inverse mapping recovers the point only up to a quantization
error of at most `(27/20)/r` per coordinate (`r` the letterbox scale),
coming from `int(round(...))` on the scaled extents and borders; it is not
exact, hence not a floating-point-tolerance round trip (see the
counterexample).  The crop-origin offset of the box-guided variant cancels
identically and does not affect the error. -/
theorem c7_theorem : ∀ (h w target : ℕ), 0 < h → 0 < w → 0 < target →
    ∀ p : ℚ × ℚ, 0 ≤ p.1 → p.1 ≤ w → 0 ≤ p.2 → p.2 ≤ h →
    |(unletterbox h w target (letterbox_fwd h w target p)).1 - p.1| ≤
      27/20 / letterbox_scale h w target
    ∧ |(unletterbox h w target (letterbox_fwd h w target p)).2 - p.2| ≤
      27/20 / letterbox_scale h w target := by
  intro h w target hh hw ht p h1 h2 h3 h4
  have hr : 0 < letterbox_scale h w target := by
    unfold letterbox_scale
    exact lt_min (div_pos (by exact_mod_cast ht) (by exact_mod_cast hh))
      (div_pos (by exact_mod_cast ht) (by exact_mod_cast hw))
  exact ⟨unletterbox_letterbox_axis target w _ p.1 hw hr h1 h2,
         unletterbox_letterbox_axis target h _ p.2 hh hr h3 h4⟩

/-- Claim C7 witness: the bound applied at a concrete unit configuration. -/
theorem c7_witness :
    |(unletterbox 1 1 1 (letterbox_fwd 1 1 1 ((0 : ℚ), (0 : ℚ)))).1 -
        ((0 : ℚ), (0 : ℚ)).1| ≤ 27/20 / letterbox_scale 1 1 1 :=
  (c7_theorem 1 1 1 one_pos one_pos one_pos ((0 : ℚ), (0 : ℚ))
    le_rfl (by norm_num) le_rfl (by norm_num)).1

/-! ### Claim C8 -/

/-- Claim C8: the visibility remap of `_detect_keypointrcnn` sends the raw
0/1/2 visibility scale to confidences 0, 1/2, 1 exactly, i.e. `vis / 2`. -/
theorem c8_theorem :
    remap_visibility 0 = 0 ∧ remap_visibility 1 = 1/2 ∧ remap_visibility 2 = 1 := by
  refine ⟨?_, ?_, ?_⟩ <;> norm_num [remap_visibility]

end LabeluPose
